import Mathlib

/-!
Shallow embedding of the App Store update monitor script
(`src/Script/AppStore/AppStoreMonitor.js`).

The script's external collaborators (persistent key-value store, HTTP
client, JSON parsing of the stored blob, notification delivery, `Date`
locale formatting) are modelled as explicit inputs and outputs: the
three store reads become fields of `Env`, every HTTP probe outcome is a
field of `Env`, and notifications, probe calls and store writes are
collected in `RunResult`.
-/

namespace AppStoreMonitor

/-! ## ECMAScript string primitives used by the script -/

/-- Whitespace recognised by JavaScript `trim`, the regex class `\s`,
and `parseInt`: the ASCII whitespace characters, the line terminators,
NBSP and BOM.  (The remaining Unicode space separators are outside the
model.) -/
def jsWs (c : Char) : Bool :=
  c = ' ' || c = '\t' || c = '\n' || c = '\r' || c = '\x0B' ||
  c = '\x0C' || c = '\u00A0' || c = '\uFEFF' || c = '\u2028' || c = '\u2029'

/-- ECMAScript line terminators; the regex `.` (without the `s` flag)
does not match these. -/
def lineTerm (c : Char) : Bool :=
  c = '\n' || c = '\r' || c = '\u2028' || c = '\u2029'

/-- JavaScript `String.prototype.trim` on a character list. -/
def jsTrimL (cs : List Char) : List Char :=
  ((cs.dropWhile jsWs).reverse.dropWhile jsWs).reverse

/-- JavaScript `String.prototype.trim`. -/
def jsTrim (s : String) : String := String.mk (jsTrimL s.data)

/-- JavaScript `String.prototype.split` with a one-character separator;
note that `"".split(sep)` yields `[""]`. -/
def splitOnChar (sep : Char) : List Char → List (List Char)
  | [] => [[]]
  | c :: cs =>
    let r := splitOnChar sep cs
    if c = sep then [] :: r
    else
      match r with
      | [] => [[c]]
      | h :: t => (c :: h) :: t

/-- Value of a run of decimal digits. -/
def digitsToNat (ds : List Char) : Nat :=
  ds.foldl (fun a c => a * 10 + (c.toNat - '0'.toNat)) 0

/-- The optional sign at the front of a `parseInt` input: the sign
factor and the remaining characters. -/
def jsSignSplit (cs : List Char) : Int × List Char :=
  match cs with
  | '+' :: r => (1, r)
  | '-' :: r => (-1, r)
  | r => (1, r)

/-- JavaScript `parseInt(s, 10)`: skip leading whitespace, read an
optional sign, then the longest run of decimal digits; `none` models
`NaN`.  (Precision loss of very large doubles is outside the model.) -/
def jsParseIntL (cs : List Char) : Option Int :=
  let s := jsSignSplit (cs.dropWhile jsWs)
  let ds := s.2.takeWhile Char.isDigit
  if ds = [] then none else some (s.1 * (digitsToNat ds : Int))

/-! ## The version comparator (`compareVersions`) -/

/-- The per-segment map inside `compareVersions`:
`const n = parseInt(p, 10); return isNaN(n) ? 0 : n;`. -/
def segValue (cs : List Char) : Int := (jsParseIntL cs).getD 0

/-- The match `v.match(/^(.+?)\s*\((\d+)\)$/)` inside `compareVersions`,
returning the (lazily shortest) main part and the build digit run.  The
string must end in a parenthesised nonempty digit run; the main part is
what precedes it with the whitespace run before `(` stripped (the lazy
`(.+?)` leaves maximal whitespace to `\s*`), must be nonempty, and may
not contain a line terminator (which `.` cannot match). -/
def matchMainBuild (cs : List Char) : Option (List Char × List Char) :=
  match cs.reverse with
  | ')' :: r1 =>
    let dsRev := r1.takeWhile Char.isDigit
    if dsRev = [] then none
    else
      match r1.drop dsRev.length with
      | '(' :: preRev =>
        let mainRev := preRev.dropWhile jsWs
        if mainRev = [] then none
        else if mainRev.any lineTerm then none
        else some (mainRev.reverse, dsRev.reverse)
      | _ => none
  | _ => none

/-- Result of the `parse` closure inside `compareVersions`. -/
structure ParsedVersion where
  parts : List Int
  build : Nat
deriving DecidableEq

/-- The `parse` closure of `compareVersions`: trim, split off an
optional trailing `(build)` suffix, split the main part on `.`, map
each segment through `parseInt` with `NaN ↦ 0`. -/
def parseVersion (v : String) : ParsedVersion :=
  let t := jsTrimL v.data
  match matchMainBuild t with
  | some (mainRaw, ds) =>
    { parts := (splitOnChar '.' (jsTrimL mainRaw)).map segValue
      build := digitsToNat ds }
  | none =>
    { parts := (splitOnChar '.' t).map segValue
      build := 0 }

/-- Comparison of the zero-padded remainder once the first parts list
is exhausted. -/
def cmpTail : List Int → Int
  | [] => 0
  | y :: ys => if (0 : Int) > y then 1 else if (0 : Int) < y then -1 else cmpTail ys

/-- The position-by-position loop of `compareVersions`: missing
positions count as `0`, the first difference decides. -/
def cmpParts : List Int → List Int → Int
  | [], ys => cmpTail ys
  | x :: xs, [] => if x > 0 then 1 else if x < 0 then -1 else cmpParts xs []
  | x :: xs, y :: ys => if x > y then 1 else if x < y then -1 else cmpParts xs ys

/-- `compareVersions(v1, v2)` from the script.  The `try`/`catch`
lexical-comparison fallback is dead code for string inputs (no step of
the structured path can throw) and is therefore not modelled. -/
def compareVersions (v1 v2 : String) : Int :=
  let a := parseVersion v1
  let b := parseVersion v2
  let c := cmpParts a.parts b.parts
  if c ≠ 0 then c
  else if a.build > b.build then 1
  else if a.build < b.build then -1
  else 0

/-! ## Data model -/

/-- One catalog lookup result object (`json.results[0]`), with the
fields the script reads.  A missing `releaseNotes` is `none`
(JavaScript `undefined`, falsy). -/
structure AppInfo where
  trackName : String
  version : String
  releaseNotes : Option String
  currentVersionReleaseDate : String
deriving DecidableEq

/-- One persisted record of `monitoredData`, keyed by app id. -/
structure AppRecord where
  version : String
  region : String
  name : String
deriving DecidableEq

/-- The `monitoredData` JavaScript object: an association list keyed by
app id, insertion ordered, keys unique by construction of the
operations below. -/
abbrev StateTable := List (String × AppRecord)

/-- Property read `monitoredData[appId]` (object key lookup). -/
def lookupTable (monitoredData : StateTable) (appId : String) : Option AppRecord :=
  match monitoredData with
  | [] => none
  | (k, v) :: rest => if k = appId then some v else lookupTable rest appId

/-- Property write `monitoredData[appId] = rec`: updates in place when
the key exists, otherwise appends (JavaScript object key order). -/
def setTable (monitoredData : StateTable) (appId : String) (rec : AppRecord) : StateTable :=
  match monitoredData with
  | [] => [(appId, rec)]
  | (k, v) :: rest =>
    if k = appId then (appId, rec) :: rest else (k, v) :: setTable rest appId rec

/-- `monitoredData[appId]?.version || null`: the stored version string,
with an empty (falsy) version degrading to `null` exactly as the
optional-chaining-plus-`||` does. -/
def storedVersionOf (monitoredData : StateTable) (appId : String) : Option String :=
  match lookupTable monitoredData appId with
  | some r => if r.version = "" then none else some r.version
  | none => none

/-! ## The HTTP probe (`lookupApp`) -/

/-- The parsed lookup payload, with the two fields the script reads
(`resultCount`, `results`). -/
structure LookupPayload where
  resultCount : Int
  results : List AppInfo
deriving DecidableEq

/-- Outcome of one `$httpClient.get` call: transport error flag, the
status of the (possibly absent) response object, and the `JSON.parse`
outcome of the body (`none` models a parse throw). -/
structure HttpResponse where
  error : Bool
  status : Option Int
  payload : Option LookupPayload

/-- `lookupApp` reduced to its resolved value: `null` on transport
error, on `response?.status !== 200`, on a body that fails to parse,
and on `resultCount ≤ 0`; otherwise the first result entry. -/
def lookupApp (resp : HttpResponse) : Option AppInfo :=
  if resp.error then none
  else if resp.status ≠ some 200 then none
  else
    match resp.payload with
    | none => none
    | some json => if json.resultCount > 0 then json.results.head? else none

/-- The `for (const region of searchOrder)` loop of `checkAppUpdate`:
first component is the first hit (with the region that produced it),
second component is the list of regions actually probed, in order. -/
def resolveRegions (probe : String → Option AppInfo) :
    List String → Option (String × AppInfo) × List String
  | [] => (none, [])
  | r :: rs =>
    match probe r with
    | some info => (some (r, info), [r])
    | none => ((resolveRegions probe rs).1, r :: (resolveRegions probe rs).2)

/-! ## Notifications and classification -/

/-- Body of a `$notification.post` call.  The `update`/`firstSeen`
bodies carry the raw `currentVersionReleaseDate` and the release-notes
text; the host `Date` locale formatting applied before display is
outside the model. -/
inductive NotifBody
  | update (updateDate : String) (notes : String)
  | firstSeen (updateDate : String)
  | message (text : String)
deriving DecidableEq

/-- One `$notification.post(title, subtitle, body, {openUrl})` call. -/
structure Notification where
  title : String
  subtitle : String
  body : NotifBody
  openUrl : Option String
deriving DecidableEq

/-- Observation class, read off the log-bucket branch structure of
`checkAppUpdate` (`initial` / `updated` / the two `noUpdate` messages /
`notFound`). -/
inductive Classification
  | FirstSeen
  | Updated
  | StaleOrRegressed
  | Unchanged
  | NotFound
deriving DecidableEq

/-- Everything one `checkAppUpdate(appId, …)` task produces: the state
table after its (single, synchronous) write, its notifications, its
class, the regions it probed, and its not-found report (the app id and
the full region list the message is built from). -/
structure StepResult where
  table : StateTable
  notifs : List Notification
  klass : Classification
  probed : List String
  notFound : Option (String × List String)
deriving DecidableEq

/-- `checkAppUpdate` for one app id.  `responses` gives the HTTP
outcome of probing each region for this id. -/
def checkAppUpdate (appId : String) (monitoredData : StateTable)
    (regions : List String) (responses : String → HttpResponse) : StepResult :=
  let res := resolveRegions (fun r => lookupApp (responses r)) regions
  match res.1 with
  | none =>
    { table := monitoredData, notifs := [], klass := .NotFound
      probed := res.2, notFound := some (appId, regions) }
  | some (regionUsed, appInfo) =>
    let appName := appInfo.trackName
    let newVersion := appInfo.version
    let releaseNotes :=
      match appInfo.releaseNotes with
      | some s => if s = "" then "暂无更新说明" else s
      | none => "暂无更新说明"
    let updateDate := appInfo.currentVersionReleaseDate
    let storedVersion := storedVersionOf monitoredData appId
    let klass : Classification :=
      match storedVersion with
      | none => .FirstSeen
      | some sv =>
        if compareVersions newVersion sv > 0 then .Updated
        else if compareVersions newVersion sv < 0 then .StaleOrRegressed
        else .Unchanged
    let accept : Bool :=
      match storedVersion with
      | none => true
      | some sv => decide (compareVersions newVersion sv > 0)
    if accept then
      let table := setTable monitoredData appId
        { version := newVersion, region := regionUsed, name := appName }
      let openUrl := "https://apps.apple.com/" ++ regionUsed ++ "/app/id" ++ appId
      let notif : Notification :=
        match storedVersion with
        | some sv =>
          { title := "「" ++ appName ++ "」有更新啦！"
            subtitle := "区域：" ++ regionUsed.toUpper ++ "　版本：" ++ sv ++ " → " ++ newVersion
            body := .update updateDate releaseNotes
            openUrl := some openUrl }
        | none =>
          { title := "「" ++ appName ++ "」已添加监控"
            subtitle := "区域：" ++ regionUsed.toUpper ++ "　当前版本：" ++ newVersion
            body := .firstSeen updateDate
            openUrl := some openUrl }
      { table := table, notifs := [notif], klass := klass
        probed := res.2, notFound := none }
    else if lookupTable monitoredData appId = none then
      -- 兜底 branch: keep a record for an app that is somehow still
      -- unrecorded; records are objects, always truthy, so absence is
      -- the only falsy case.
      { table := setTable monitoredData appId
          { version := newVersion, region := regionUsed, name := appName }
        notifs := [], klass := klass, probed := res.2, notFound := none }
    else
      { table := monitoredData, notifs := [], klass := klass
        probed := res.2, notFound := none }

/-! ## The orchestration (`main`) -/

/-- JavaScript truthiness of a `$persistentStore.read` result: `null`
and the empty string are the only falsy cases. -/
def truthyOpt : Option String → Bool
  | none => false
  | some s => !(s = "")

/-- `appStoreIds ? appStoreIds.split(',').map(id => id.trim()).filter(Boolean) : []`. -/
def parseIds (appStoreIds : Option String) : List String :=
  match appStoreIds with
  | none => []
  | some s =>
    if s = "" then []
    else ((splitOnChar ',' s.data).map (fun cs => String.mk (jsTrimL cs))).filter
      (fun x => !(x = ""))

/-- The custom region list: split on commas, trim, lowercase, drop
empties; empty when the stored value is falsy. -/
def parseRegions (customRegionsRaw : Option String) : List String :=
  match customRegionsRaw with
  | none => []
  | some s =>
    if s = "" then []
    else ((splitOnChar ',' s.data).map (fun cs => (String.mk (jsTrimL cs)).toLower)).filter
      (fun x => !(x = ""))

/-- The default nine-region probe order. -/
def defaultRegions : List String :=
  ["us", "cn", "hk", "mo", "tw", "jp", "kr", "sg", "tr"]

/-- The region order a run uses: the custom list when it is nonempty
after cleaning, else the default order. -/
def effectiveRegions (customRegionsRaw : Option String) : List String :=
  let custom := parseRegions customRegionsRaw
  if custom = [] then defaultRegions else custom

/-- `handleDeletions`: delete every stored record whose id is no longer
tracked (JavaScript `delete` keeps the order of the remaining keys). -/
def handleDeletions (newIds : List String) (monitoredData : StateTable) : StateTable :=
  monitoredData.filter (fun p => decide (p.1 ∈ newIds))

/-- The run environment: the three `$persistentStore.read` results, the
`JSON.parse` outcome of the stored blob (`none` models a throw, only
consulted when the blob is truthy), and the HTTP outcome of probing
region `r` for id `id`. -/
structure Env where
  appIdsRaw : Option String
  storedRaw : Option String
  regionsRaw : Option String
  parsedStored : Option StateTable
  responses : String → String → HttpResponse

/-- The `monitoredData` value after the load-and-parse step of `main`:
`{}` when the blob is falsy or when parsing it throws. -/
def loadState (env : Env) : StateTable :=
  if truthyOpt env.storedRaw then env.parsedStored.getD [] else []

/-- A write to the `AppStore_Monitored_Apps` key: either the erase
write of the empty string, or the final `JSON.stringify(monitoredData)`
write, modelled by the table that is serialised. -/
inductive StateWrite
  | erase
  | save (t : StateTable)
deriving DecidableEq

/-- The configuration-needed notification of the unconfigured branch. -/
def configNotification : Notification :=
  { title := "App Store 监控未配置"
    subtitle := ""
    body := .message "未配置 AppStore AppID，请在本地持久化配置中写入键名 AppStore_AppID。"
    openUrl := none }

/-- Accumulated result of the per-id tasks. -/
structure TasksResult where
  table : StateTable
  notifs : List Notification
  probes : List (String × String)
  classes : List (String × Classification)
deriving DecidableEq

/-- The `Promise.all(newIds.map(id => checkAppUpdate(id, …)))` fan-out.
Each task reads and writes only its own key and the probe outcomes do
not depend on the shared table, so the cooperative interleavings agree
up to log order; the model runs the tasks in dispatch order. -/
def runTasks (regions : List String) (responses : String → String → HttpResponse) :
    List String → StateTable → TasksResult
  | [], t => { table := t, notifs := [], probes := [], classes := [] }
  | id :: rest, t =>
    let st := checkAppUpdate id t regions (fun r => responses r id)
    let r := runTasks regions responses rest st.table
    { table := r.table
      notifs := st.notifs ++ r.notifs
      probes := st.probed.map (fun rg => (id, rg)) ++ r.probes
      classes := (id, st.klass) :: r.classes }

/-- Everything a run emits: notifications in order, writes to the
monitored-apps key, probe calls `(id, region)` in dispatch order,
the class of each task, and whether `$done()` was reached. -/
structure RunResult where
  notifs : List Notification
  writes : List StateWrite
  probes : List (String × String)
  classes : List (String × Classification)
  done : Bool
deriving DecidableEq

/-- The `main` function of the script. -/
def main (env : Env) : RunResult :=
  if truthyOpt env.appIdsRaw = false ∧
      (truthyOpt env.storedRaw = false ∨ env.storedRaw = some "{}" ∨
        env.storedRaw = some "") then
    { notifs := [configNotification], writes := [], probes := []
      classes := [], done := true }
  else
    let newIds := parseIds env.appIdsRaw
    if newIds = [] then
      if truthyOpt env.storedRaw = true ∧ env.storedRaw ≠ some "{}" ∧
          env.storedRaw ≠ some "" then
        { notifs := [], writes := [.erase], probes := [], classes := [], done := true }
      else
        { notifs := [], writes := [], probes := [], classes := [], done := true }
    else
      let monitoredData := loadState env
      let afterDel := handleDeletions newIds monitoredData
      let regions := effectiveRegions env.regionsRaw
      let r := runTasks regions env.responses newIds afterDel
      { notifs := r.notifs, writes := [.save r.table], probes := r.probes
        classes := r.classes, done := true }

/-! ## Fixtures used by witnesses and counterexamples -/

/-- Follows the words of the specification for claim C6: a segment is
"numeric" when it is a nonempty string of decimal digits. -/
def specNumericSegment (cs : List Char) : Bool :=
  !cs.isEmpty && cs.all Char.isDigit

/-- Probe oracle for the C3 witness: only region `cn` answers. -/
def wProbeC3 : String → Option AppInfo :=
  fun q =>
    if q = "cn" then
      some { trackName := "W", version := "1.0", releaseNotes := none
             currentVersionReleaseDate := "2024-01-01" }
    else none

/-- Lookup result used by the C1/C2 fixtures: name `A`, version `0`. -/
def cexInfo : AppInfo :=
  { trackName := "A", version := "0", releaseNotes := none
    currentVersionReleaseDate := "2024-01-01" }

/-- Responses for the C1/C2 fixtures: every region answers with
`cexInfo`. -/
def cexResponses : String → HttpResponse :=
  fun _ => { error := false, status := some 200
             payload := some { resultCount := 1, results := [cexInfo] } }

/-- Stored table for the C1/C2 counterexamples: id `1` has a record
whose version string is empty. -/
def cexTable : StateTable := [("1", { version := "", region := "us", name := "A" })]

/-- Stored table for the C2 witness: id `1` at version `1.0`. -/
def wTableC2 : StateTable := [("1", { version := "1.0", region := "us", name := "A" })]

/-- Lookup result for the C2 witness: version `2.0`. -/
def wInfoC2 : AppInfo :=
  { trackName := "A", version := "2.0", releaseNotes := none
    currentVersionReleaseDate := "2024-01-01" }

/-- Responses for the C2 witness: every region answers `wInfoC2`. -/
def wRespC2 : String → HttpResponse :=
  fun _ =>
    { error := false, status := some 200
      payload := some { resultCount := 1, results := [wInfoC2] } }

/-- Environment for the C7 witness: nothing configured, no state. -/
def wEnvC7 : Env :=
  { appIdsRaw := none, storedRaw := none, regionsRaw := none, parsedStored := none
    responses := fun _ _ => { error := true, status := none, payload := none } }

/-- Environment for the C8 witness: the id list is a lone comma, the
stored blob is non-empty. -/
def wEnvC8 : Env :=
  { appIdsRaw := some ",", storedRaw := some "X", regionsRaw := none, parsedStored := none
    responses := fun _ _ => { error := true, status := none, payload := none } }

/-- Environment for the C9 witness: one tracked id, a stored blob that
does not parse, every region answering successfully. -/
def wEnvC9 : Env :=
  { appIdsRaw := some "1", storedRaw := some "oops", regionsRaw := none
    parsedStored := none
    responses := fun _ _ =>
      { error := false, status := some 200
        payload := some { resultCount := 1, results := [cexInfo] } } }

/-! ## Helper lemmas about the comparator -/

theorem cmpParts_nil_eq_neg_cmpTail (ys : List Int) : cmpParts ys [] = -cmpTail ys := by
  induction ys with
  | nil => simp [cmpParts, cmpTail]
  | cons y ys ih =>
    simp only [cmpParts, cmpTail]
    rcases lt_trichotomy y 0 with h | h | h
    · rw [if_neg (by omega), if_pos (by omega), if_pos (by omega)]
    · subst h; simp [ih]
    · rw [if_pos (by omega), if_neg (by omega), if_pos (by omega)]
      norm_num

theorem cmpParts_antisym (xs : List Int) : ∀ ys, cmpParts xs ys = -cmpParts ys xs := by
  induction xs with
  | nil =>
    intro ys
    show cmpTail ys = -cmpParts ys []
    rw [cmpParts_nil_eq_neg_cmpTail]; ring
  | cons x xs ih =>
    intro ys
    cases ys with
    | nil =>
      rw [cmpParts_nil_eq_neg_cmpTail]
      rfl
    | cons y ys =>
      simp only [cmpParts]
      rcases lt_trichotomy x y with h | h | h
      · rw [if_neg (by omega), if_pos (by omega), if_pos (by omega)]
      · subst h
        rw [if_neg (by omega), if_neg (by omega), if_neg (by omega), if_neg (by omega)]
        exact ih ys
      · rw [if_pos (by omega), if_neg (by omega), if_pos (by omega)]
        norm_num

/-! ## Claim theorems -/

/-- C4: the version comparator returns exactly the four documented
values on the four concrete input pairs. -/
theorem C4_comparator_concrete_values :
    compareVersions "6.8(12)" "6.8(5)" = 1 ∧
    compareVersions "6.8" "6.8(1)" = -1 ∧
    compareVersions "1.2.0" "1.2" = 0 ∧
    compareVersions "1.10.0" "1.9.9" = 1 := by
  refine ⟨?_, ?_, ?_, ?_⟩ <;> decide

/-- C5: for every pair of version strings, the comparator is
antisymmetric: `compareVersions a b = -compareVersions b a`. -/
theorem C5_comparator_antisym (a b : String) :
    compareVersions a b = -compareVersions b a := by
  unfold compareVersions
  dsimp only
  have hparts := cmpParts_antisym (parseVersion a).parts (parseVersion b).parts
  by_cases hc : cmpParts (parseVersion a).parts (parseVersion b).parts = 0
  · have hc2 : cmpParts (parseVersion b).parts (parseVersion a).parts = 0 := by
      rw [cmpParts_antisym]; omega
    rw [hc, hc2]
    rw [if_neg (show ¬((0 : Int) ≠ 0) by simp)]
    rw [if_neg (show ¬((0 : Int) ≠ 0) by simp)]
    rcases Nat.lt_trichotomy (parseVersion a).build (parseVersion b).build with h | h | h
    · rw [if_neg (show ¬((parseVersion a).build > (parseVersion b).build) by omega),
        if_pos h,
        if_pos (show (parseVersion b).build > (parseVersion a).build by omega)]
    · rw [if_neg (show ¬((parseVersion a).build > (parseVersion b).build) by omega),
        if_neg (show ¬((parseVersion a).build < (parseVersion b).build) by omega),
        if_neg (show ¬((parseVersion b).build > (parseVersion a).build) by omega),
        if_neg (show ¬((parseVersion b).build < (parseVersion a).build) by omega)]
      norm_num
    · rw [if_pos (show (parseVersion a).build > (parseVersion b).build by omega),
        if_neg (show ¬((parseVersion b).build > (parseVersion a).build) by omega),
        if_pos h]
      norm_num
  · have hc2 : cmpParts (parseVersion b).parts (parseVersion a).parts ≠ 0 := by
      rw [cmpParts_antisym]; omega
    rw [if_pos hc, if_pos hc2, hparts]

/-! ## Segment parsing (claim C6) -/

theorem jsWs_isDigit_false (c : Char) (h : jsWs c = true) : c.isDigit = false := by
  unfold jsWs at h
  simp only [Bool.or_eq_true, decide_eq_true_eq] at h
  casesm* _ ∨ _ <;> subst_vars <;> decide

theorem takeWhile_isDigit_eq_nil (l : List Char) (h : ∀ c ∈ l, c.isDigit = false) :
    l.takeWhile Char.isDigit = [] := by
  cases l with
  | nil => rfl
  | cons c r => simp [List.takeWhile_cons, h c (by simp)]

theorem takeWhile_isDigit_append (ds rest : List Char)
    (hall : ∀ c ∈ ds, c.isDigit = true)
    (hrest : ∀ c, rest.head? = some c → c.isDigit = false) :
    (ds ++ rest).takeWhile Char.isDigit = ds := by
  induction ds with
  | nil =>
    cases rest with
    | nil => rfl
    | cons c r => simp [List.takeWhile_cons, hrest c rfl]
  | cons d ds ih =>
    simp only [List.cons_append, List.takeWhile_cons, hall d (by simp), if_true]
    rw [ih (fun c hc => hall c (by simp [hc]))]

/-- C6 counterexample: the segment `"2x"` is not numeric, yet it is
mapped to `2`, not `0` — the parts sequence of `"1.2x"` is `[1, 2]`. -/
theorem C6_counterexample :
    specNumericSegment "2x".data = false ∧
    segValue "2x".data = 2 ∧ segValue "2x".data ≠ 0 ∧
    (parseVersion "1.2x").parts = [1, 2] := by
  refine ⟨?_, ?_, ?_, ?_⟩ <;> decide

/-- C6 (amended): each dotted segment is parsed with JavaScript
`parseInt` semantics — a segment containing no decimal digit at all
contributes `0` to the parts sequence, and a segment beginning with a
digit run contributes the value of that run even when non-numeric
characters follow. -/
theorem jsSignSplit_snd_subset (t : List Char) : ∀ c ∈ (jsSignSplit t).2, c ∈ t := by
  unfold jsSignSplit
  split <;> intro c hc <;> simp_all

theorem jsSignSplit_other (d : Char) (l : List Char) (h1 : d ≠ '+') (h2 : d ≠ '-') :
    jsSignSplit (d :: l) = (1, d :: l) := by
  unfold jsSignSplit
  split
  · rename_i heq
    injection heq with hh _
    exact absurd hh h1
  · rename_i heq
    injection heq with hh _
    exact absurd hh h2
  · rfl

theorem C6_segment_parse :
    (∀ cs : List Char, (∀ c ∈ cs, c.isDigit = false) → segValue cs = 0) ∧
    (∀ ds rest : List Char, ds ≠ [] → (∀ c ∈ ds, c.isDigit = true) →
      (∀ c, rest.head? = some c → c.isDigit = false) →
      segValue (ds ++ rest) = (digitsToNat ds : Int)) := by
  constructor
  · intro cs h
    have hsubl : List.Sublist (cs.dropWhile jsWs) cs := List.dropWhile_sublist jsWs
    have hsub : ∀ c ∈ cs.dropWhile jsWs, c.isDigit = false :=
      fun c hc => h c (hsubl.subset hc)
    unfold segValue jsParseIntL
    dsimp only
    rw [takeWhile_isDigit_eq_nil _
      (fun c hc => hsub c (jsSignSplit_snd_subset (cs.dropWhile jsWs) c hc))]
    simp
  · intro ds rest hne hall hrest
    obtain ⟨d, ds2, rfl⟩ : ∃ d ds2, ds = d :: ds2 := by
      cases ds with
      | nil => exact absurd rfl hne
      | cons d ds2 => exact ⟨d, ds2, rfl⟩
    have hd : d.isDigit = true := hall d (by simp)
    have hdw : jsWs d = false := by
      cases hjw : jsWs d with
      | false => rfl
      | true => rw [jsWs_isDigit_false d hjw] at hd; exact absurd hd (by simp)
    have hplus : d ≠ '+' := by rintro rfl; exact absurd hd (by decide)
    have hminus : d ≠ '-' := by rintro rfl; exact absurd hd (by decide)
    have hdrop : List.dropWhile jsWs (d :: (ds2 ++ rest)) = d :: (ds2 ++ rest) := by
      rw [List.dropWhile_cons, if_neg (by simp [hdw])]
    unfold segValue jsParseIntL
    dsimp only
    rw [List.cons_append, hdrop, jsSignSplit_other d (ds2 ++ rest) hplus hminus]
    dsimp only
    rw [← List.cons_append, takeWhile_isDigit_append (d :: ds2) rest hall hrest,
      if_neg (by simp)]
    simp

/-- C6 witness: a digit-free segment maps to 0, and a segment with a
leading digit run maps to that run's value. -/
theorem C6_segment_parse_witness :
    segValue "x".data = 0 ∧
    segValue ("2".data ++ "x".data) = (digitsToNat "2".data : Int) :=
  ⟨C6_segment_parse.1 "x".data (by decide),
   C6_segment_parse.2 "2".data "x".data (by decide) (by decide)
     (fun c hc => by rw [← Option.some.inj hc]; decide)⟩

/-! ## Region resolution (claim C3) -/

/-- C3: a single-region probe misses on a transport error, a non-200
status, an unparseable payload, or a non-positive result count; the
region loop returns the first hit immediately, probing exactly the
regions up to and including it; when every region misses it yields no
result after probing the whole list, and `checkAppUpdate` then reports
not-found carrying the full region list, with no state change and no
notification. -/
theorem C3_region_resolution :
    (∀ resp : HttpResponse, resp.error = true → lookupApp resp = none) ∧
    (∀ resp : HttpResponse, resp.status ≠ some 200 → lookupApp resp = none) ∧
    (∀ resp : HttpResponse, resp.payload = none → lookupApp resp = none) ∧
    (∀ (resp : HttpResponse) (p : LookupPayload), resp.payload = some p →
      p.resultCount ≤ 0 → lookupApp resp = none) ∧
    (∀ (probe : String → Option AppInfo) (pre : List String) (r : String)
        (rest : List String) (info : AppInfo),
      (∀ q ∈ pre, probe q = none) → probe r = some info →
      resolveRegions probe (pre ++ r :: rest) = (some (r, info), pre ++ [r])) ∧
    (∀ (probe : String → Option AppInfo) (regions : List String),
      (∀ q ∈ regions, probe q = none) → resolveRegions probe regions = (none, regions)) ∧
    (∀ (appId : String) (t : StateTable) (regions : List String)
        (responses : String → HttpResponse),
      (∀ q ∈ regions, lookupApp (responses q) = none) →
      (checkAppUpdate appId t regions responses).notFound = some (appId, regions) ∧
      (checkAppUpdate appId t regions responses).table = t ∧
      (checkAppUpdate appId t regions responses).notifs = [] ∧
      (checkAppUpdate appId t regions responses).klass = .NotFound) := by
  have hmiss : ∀ (probe : String → Option AppInfo) (regions : List String),
      (∀ q ∈ regions, probe q = none) → resolveRegions probe regions = (none, regions) := by
    intro probe regions h
    induction regions with
    | nil => rfl
    | cons r rs ih =>
      have hr : probe r = none := h r (by simp)
      simp only [resolveRegions, hr]
      rw [ih (fun q hq => h q (by simp [hq]))]
  refine ⟨?_, ?_, ?_, ?_, ?_, hmiss, ?_⟩
  · intro resp h
    unfold lookupApp
    simp [h]
  · intro resp h
    unfold lookupApp
    by_cases he : resp.error <;> simp [he, h]
  · intro resp h
    unfold lookupApp
    by_cases he : resp.error <;> by_cases hs : resp.status = some 200 <;> simp [he, hs, h]
  · intro resp p hp hc
    unfold lookupApp
    by_cases he : resp.error <;> by_cases hs : resp.status = some 200 <;>
      simp [he, hs, hp, not_lt.mpr hc]
  · intro probe pre r rest info hpre hr
    induction pre with
    | nil => simp [resolveRegions, hr]
    | cons q pre ih =>
      have hq : probe q = none := hpre q (by simp)
      simp only [List.cons_append, resolveRegions, hq, List.append_eq]
      rw [ih (fun x hx => hpre x (by simp [hx]))]
  · intro appId t regions responses h
    have hres : resolveRegions (fun r => lookupApp (responses r)) regions = (none, regions) :=
      hmiss _ regions h
    unfold checkAppUpdate
    rw [hres]
    exact ⟨rfl, rfl, rfl, rfl⟩

/-- C3 witness: with `us` missing and `cn` hitting, resolution returns
the `cn` result having probed exactly `us` then `cn`, never `jp`. -/
theorem C3_region_resolution_witness :
    resolveRegions wProbeC3 ["us", "cn", "jp"] =
      (some ("cn", { trackName := "W", version := "1.0", releaseNotes := none
                     currentVersionReleaseDate := "2024-01-01" }), ["us", "cn"]) :=
  C3_region_resolution.2.2.2.2.1 wProbeC3 ["us"] "cn" ["jp"] _ (by decide) (by decide)

/-! ## Table lemmas -/

theorem lookupTable_setTable_self (t : StateTable) (k : String) (v : AppRecord) :
    lookupTable (setTable t k v) k = some v := by
  induction t with
  | nil => simp [setTable, lookupTable]
  | cons p rest ih =>
    obtain ⟨pk, pv⟩ := p
    by_cases h : pk = k
    · simp [setTable, lookupTable, h]
    · simp only [setTable, lookupTable, if_neg h]
      exact ih

theorem lookupTable_setTable_ne (t : StateTable) (k j : String) (v : AppRecord)
    (h : j ≠ k) : lookupTable (setTable t k v) j = lookupTable t j := by
  have hk : ¬(k = j) := fun hh => h hh.symm
  induction t with
  | nil => simp [setTable, lookupTable, hk]
  | cons p rest ih =>
    obtain ⟨pk, pv⟩ := p
    by_cases hp : pk = k
    · subst hp
      simp [setTable, lookupTable, hk]
    · simp only [setTable, lookupTable, if_neg hp]
      by_cases hj : pk = j <;> simp [hj, ih]

theorem lookupTable_ne_none_of_storedVersion (t : StateTable) (appId sv : String)
    (h : storedVersionOf t appId = some sv) : lookupTable t appId ≠ none := by
  unfold storedVersionOf at h
  cases hl : lookupTable t appId with
  | none => rw [hl] at h; exact absurd h (by simp)
  | some r => simp

theorem storedVersion_eq_of_lookup (t : StateTable) (appId sv : String) (r : AppRecord)
    (hl : lookupTable t appId = some r) (h : storedVersionOf t appId = some sv) :
    sv = r.version ∧ r.version ≠ "" := by
  unfold storedVersionOf at h
  rw [hl] at h
  dsimp only at h
  by_cases hv : r.version = ""
  · rw [if_pos hv] at h; exact absurd h (by simp)
  · rw [if_neg hv] at h
    exact ⟨(Option.some.inj h).symm, hv⟩

/-! ## Classification and state overwrite (claims C1, C2) -/

/-- C1 counterexample: a stored record exists for id `1` and the
observed version `0` compares equal to the stored version `""`, so the
claimed decision table demands Unchanged with no state write and no
notification; the code instead classifies FirstSeen, writes the entry
and posts one notification. -/
theorem C1_counterexample :
    lookupTable cexTable "1" = some { version := "", region := "us", name := "A" } ∧
    compareVersions cexInfo.version "" = 0 ∧
    (checkAppUpdate "1" cexTable ["us"] cexResponses).klass = .FirstSeen ∧
    (checkAppUpdate "1" cexTable ["us"] cexResponses).notifs.length = 1 ∧
    (checkAppUpdate "1" cexTable ["us"] cexResponses).table ≠ cexTable := by
  refine ⟨?_, ?_, ?_, ?_, ?_⟩ <;> decide

/-- C1 (amended): the decision table holds with record absence judged
by the stored version string's truthiness — a missing record or one
whose stored version is the empty string yields FirstSeen with a state
write and one notification; otherwise the comparison of the observed
version against the stored version yields Updated (write, one
notification), StaleOrRegressed (no write, no notification) or
Unchanged (no write, no notification). -/
theorem C1_classification (appId : String) (t : StateTable) (regions : List String)
    (responses : String → HttpResponse) (regionUsed : String) (info : AppInfo)
    (hres : (resolveRegions (fun r => lookupApp (responses r)) regions).1 =
      some (regionUsed, info)) :
    (storedVersionOf t appId = none →
      (checkAppUpdate appId t regions responses).klass = .FirstSeen ∧
      (checkAppUpdate appId t regions responses).table =
        setTable t appId
          { version := info.version, region := regionUsed, name := info.trackName } ∧
      (checkAppUpdate appId t regions responses).notifs.length = 1) ∧
    (∀ sv, storedVersionOf t appId = some sv →
      (compareVersions info.version sv > 0 →
        (checkAppUpdate appId t regions responses).klass = .Updated ∧
        (checkAppUpdate appId t regions responses).table =
          setTable t appId
            { version := info.version, region := regionUsed, name := info.trackName } ∧
        (checkAppUpdate appId t regions responses).notifs.length = 1) ∧
      (compareVersions info.version sv < 0 →
        (checkAppUpdate appId t regions responses).klass = .StaleOrRegressed ∧
        (checkAppUpdate appId t regions responses).table = t ∧
        (checkAppUpdate appId t regions responses).notifs = []) ∧
      (compareVersions info.version sv = 0 →
        (checkAppUpdate appId t regions responses).klass = .Unchanged ∧
        (checkAppUpdate appId t regions responses).table = t ∧
        (checkAppUpdate appId t regions responses).notifs = [])) := by
  unfold checkAppUpdate
  dsimp only
  rw [hres]
  dsimp only
  constructor
  · intro h
    rw [h]
    exact ⟨rfl, rfl, rfl⟩
  · intro sv h
    have hlook := lookupTable_ne_none_of_storedVersion t appId sv h
    rw [h]
    dsimp only
    refine ⟨?_, ?_, ?_⟩
    · intro hcmp
      rw [if_pos hcmp, if_pos (show decide (compareVersions info.version sv > 0) = true by
        simp only [decide_eq_true_eq]; omega)]
      exact ⟨rfl, rfl, rfl⟩
    · intro hcmp
      rw [if_neg (show ¬compareVersions info.version sv > 0 by omega), if_pos hcmp,
        if_neg (show ¬decide (compareVersions info.version sv > 0) = true by
          simp only [decide_eq_true_eq]; omega),
        if_neg hlook]
      exact ⟨rfl, rfl, rfl⟩
    · intro hcmp
      rw [if_neg (show ¬compareVersions info.version sv > 0 by omega),
        if_neg (show ¬compareVersions info.version sv < 0 by omega),
        if_neg (show ¬decide (compareVersions info.version sv > 0) = true by
          simp only [decide_eq_true_eq]; omega),
        if_neg hlook]
      exact ⟨rfl, rfl, rfl⟩

/-- C1 witness: on an empty table the (successfully resolved)
observation is FirstSeen, the entry is written and one notification is
posted. -/
theorem C1_classification_witness :
    (checkAppUpdate "1" [] ["us"] cexResponses).klass = .FirstSeen ∧
    (checkAppUpdate "1" [] ["us"] cexResponses).table =
      setTable [] "1"
        { version := cexInfo.version, region := "us", name := cexInfo.trackName } ∧
    (checkAppUpdate "1" [] ["us"] cexResponses).notifs.length = 1 :=
  (C1_classification "1" [] ["us"] cexResponses "us" cexInfo (by decide)).1 (by decide)

/-- C2 counterexample: a prior record for id `1` exists (version `""`),
the observed version `0` does not compare strictly greater than it,
and yet the stored version field is overwritten from `""` to `0`. -/
theorem C2_counterexample :
    lookupTable cexTable "1" = some { version := "", region := "us", name := "A" } ∧
    ¬ compareVersions cexInfo.version "" > 0 ∧
    lookupTable (checkAppUpdate "1" cexTable ["us"] cexResponses).table "1" =
      some { version := "0", region := "us", name := "A" } ∧
    ("0" : String) ≠ "" := by
  refine ⟨?_, ?_, ?_, ?_⟩ <;> decide

/-- C2 (amended): the stored version field changes value only when no
prior record exists, or the prior record's version is the empty string
(falsy, treated as absent), or the newly observed version compares
strictly greater than the prior stored version. -/
theorem C2_version_overwrite (appId : String) (t : StateTable) (regions : List String)
    (responses : String → HttpResponse) (r0 r1 : AppRecord)
    (h0 : lookupTable t appId = some r0)
    (h1 : lookupTable (checkAppUpdate appId t regions responses).table appId = some r1)
    (hne : r1.version ≠ r0.version) :
    r0.version = "" ∨ compareVersions r1.version r0.version > 0 := by
  unfold checkAppUpdate at h1
  dsimp only at h1
  cases hres : (resolveRegions (fun r => lookupApp (responses r)) regions).1 with
  | none =>
    rw [hres] at h1
    dsimp only at h1
    rw [h0] at h1
    exact absurd (congrArg AppRecord.version (Option.some.inj h1)).symm hne
  | some ri =>
    obtain ⟨regionUsed, info⟩ := ri
    rw [hres] at h1
    dsimp only at h1
    cases hsv : storedVersionOf t appId with
    | none =>
      left
      unfold storedVersionOf at hsv
      rw [h0] at hsv
      dsimp only at hsv
      by_cases hv : r0.version = ""
      · exact hv
      · rw [if_neg hv] at hsv; exact absurd hsv (by simp)
    | some sv =>
      obtain ⟨hsveq, hvne⟩ := storedVersion_eq_of_lookup t appId sv r0 h0 hsv
      rw [hsv] at h1
      dsimp only at h1
      by_cases hcmp : compareVersions info.version sv > 0
      · rw [if_pos (show decide (compareVersions info.version sv > 0) = true by
          simp only [decide_eq_true_eq]; omega)] at h1
        dsimp only at h1
        rw [lookupTable_setTable_self] at h1
        have hr1 :
            r1 = { version := info.version, region := regionUsed, name := info.trackName } :=
          (Option.some.inj h1).symm
        right
        rw [hr1]
        dsimp only
        rw [← hsveq]
        exact hcmp
      · rw [if_neg (show ¬decide (compareVersions info.version sv > 0) = true by
            simp only [decide_eq_true_eq]; omega),
          if_neg (lookupTable_ne_none_of_storedVersion t appId sv hsv)] at h1
        dsimp only at h1
        rw [h0] at h1
        exact absurd (congrArg AppRecord.version (Option.some.inj h1)).symm hne

/-- C2 witness: the overwrite from `1.0` to `2.0` satisfies the
amended guard. -/
theorem C2_version_overwrite_witness :
    ("1.0" : String) = "" ∨ compareVersions "2.0" "1.0" > 0 :=
  C2_version_overwrite "1" wTableC2 ["us"] wRespC2
    { version := "1.0", region := "us", name := "A" }
    { version := "2.0", region := "us", name := "A" }
    (by decide) (by decide) (by decide)

/-! ## Run-level lemmas -/

theorem parseIds_eq_nil_of_falsy (o : Option String) (h : truthyOpt o = false) :
    parseIds o = [] := by
  cases o with
  | none => rfl
  | some s =>
    unfold truthyOpt at h
    simp at h
    subst h
    rfl

theorem checkAppUpdate_table_other (appId id : String) (t : StateTable)
    (regions : List String) (responses : String → HttpResponse) (h : id ≠ appId) :
    lookupTable (checkAppUpdate appId t regions responses).table id = lookupTable t id := by
  unfold checkAppUpdate
  dsimp only
  cases hres : (resolveRegions (fun r => lookupApp (responses r)) regions).1 with
  | none => rfl
  | some ri =>
    obtain ⟨regionUsed, info⟩ := ri
    dsimp only
    cases hsv : storedVersionOf t appId with
    | none =>
      dsimp only
      rw [if_pos rfl]
      exact lookupTable_setTable_ne t appId id _ h
    | some sv =>
      dsimp only
      by_cases hc : decide (compareVersions info.version sv > 0) = true
      · rw [if_pos hc]
        exact lookupTable_setTable_ne t appId id _ h
      · rw [if_neg hc]
        by_cases hl : lookupTable t appId = none
        · rw [if_pos hl]
          exact lookupTable_setTable_ne t appId id _ h
        · rw [if_neg hl]

theorem checkAppUpdate_firstSeen (appId : String) (t : StateTable)
    (regions : List String) (responses : String → HttpResponse)
    (hlook : lookupTable t appId = none)
    (hres : (resolveRegions (fun r => lookupApp (responses r)) regions).1 ≠ none) :
    (checkAppUpdate appId t regions responses).klass = .FirstSeen := by
  have hsv : storedVersionOf t appId = none := by
    unfold storedVersionOf
    rw [hlook]
  unfold checkAppUpdate
  dsimp only
  cases hres2 : (resolveRegions (fun r => lookupApp (responses r)) regions).1 with
  | none => exact absurd hres2 hres
  | some ri =>
    obtain ⟨regionUsed, info⟩ := ri
    dsimp only
    rw [hsv]
    dsimp only
    rw [if_pos rfl]

theorem runTasks_firstSeen (regions : List String)
    (responses : String → String → HttpResponse) :
    ∀ (ids : List String) (t : StateTable) (id : String), id ∈ ids →
      lookupTable t id = none →
      (resolveRegions (fun r => lookupApp (responses r id)) regions).1 ≠ none →
      (id, Classification.FirstSeen) ∈ (runTasks regions responses ids t).classes := by
  intro ids
  induction ids with
  | nil =>
    intro t id hmem
    exact absurd hmem (List.not_mem_nil id)
  | cons id0 rest ih =>
    intro t id hmem hlook hres
    by_cases hid : id = id0
    · subst hid
      unfold runTasks
      dsimp only
      rw [checkAppUpdate_firstSeen id t regions (fun r => responses r id) hlook hres]
      exact List.mem_cons_self _ _
    · have hmem2 : id ∈ rest := by
        rw [List.mem_cons] at hmem
        rcases hmem with hh | hh
        · exact absurd hh hid
        · exact hh
      unfold runTasks
      dsimp only
      apply List.mem_cons_of_mem
      apply ih _ id hmem2 _ hres
      rw [checkAppUpdate_table_other id0 id t regions (fun r => responses r id0) hid]
      exact hlook

theorem checkAppUpdate_probed (appId : String) (t : StateTable)
    (regions : List String) (responses : String → HttpResponse) :
    (checkAppUpdate appId t regions responses).probed =
      (resolveRegions (fun r => lookupApp (responses r)) regions).2 := by
  unfold checkAppUpdate
  dsimp only
  cases hres : (resolveRegions (fun r => lookupApp (responses r)) regions).1 with
  | none => rfl
  | some ri =>
    obtain ⟨regionUsed, info⟩ := ri
    dsimp only
    cases hsv : storedVersionOf t appId with
    | none =>
      dsimp only
      rw [if_pos rfl]
    | some sv =>
      dsimp only
      by_cases hc : decide (compareVersions info.version sv > 0) = true
      · rw [if_pos hc]
      · rw [if_neg hc]
        by_cases hl : lookupTable t appId = none
        · rw [if_pos hl]
        · rw [if_neg hl]

theorem runTasks_probes (regions : List String)
    (responses : String → String → HttpResponse) :
    ∀ (ids : List String) (t : StateTable),
      (runTasks regions responses ids t).probes =
        ids.flatMap (fun id =>
          ((resolveRegions (fun r => lookupApp (responses r id)) regions).2).map
            (fun rg => (id, rg))) := by
  intro ids
  induction ids with
  | nil => intro t; rfl
  | cons id rest ih =>
    intro t
    unfold runTasks
    dsimp only
    rw [checkAppUpdate_probed, ih, List.flatMap_cons]

/-! ## Run-level claims C7, C8, C9, C10 -/

/-- C7: with no tracked-id configuration and absent, blank or empty
stored state, the run posts exactly one configuration-needed
notification, writes nothing to the store, and terminates. -/
theorem C7_unconfigured (env : Env)
    (hids : env.appIdsRaw = none ∨ env.appIdsRaw = some "")
    (hst : env.storedRaw = none ∨ env.storedRaw = some "" ∨ env.storedRaw = some "{}") :
    (main env).notifs = [configNotification] ∧
    (main env).writes = [] ∧ (main env).done = true := by
  have h1 : truthyOpt env.appIdsRaw = false := by
    rcases hids with h | h <;> simp [h, truthyOpt]
  have h2 : truthyOpt env.storedRaw = false ∨ env.storedRaw = some "{}" ∨
      env.storedRaw = some "" := by
    rcases hst with h | h | h
    · exact Or.inl (by simp [h, truthyOpt])
    · exact Or.inr (Or.inr h)
    · exact Or.inr (Or.inl h)
  unfold main
  rw [if_pos ⟨h1, h2⟩]
  exact ⟨rfl, rfl, rfl⟩

/-- C7 witness. -/
theorem C7_unconfigured_witness :
    (main wEnvC7).notifs = [configNotification] ∧
    (main wEnvC7).writes = [] ∧ (main wEnvC7).done = true :=
  C7_unconfigured wEnvC7 (Or.inl rfl) (Or.inl rfl)

/-- C8: when the tracked-id configuration resolves to the empty set,
a non-empty persisted state is erased (the empty-string write) with
zero notifications, and an already-empty persisted state is left
without any write; the run terminates in both cases. -/
theorem C8_empty_tracked_set (env : Env)
    (hempty : parseIds env.appIdsRaw = []) :
    ((truthyOpt env.storedRaw = true ∧ env.storedRaw ≠ some "{}" ∧
        env.storedRaw ≠ some "") →
      (main env).writes = [StateWrite.erase] ∧ (main env).notifs = [] ∧
      (main env).done = true) ∧
    ((truthyOpt env.storedRaw = false ∨ env.storedRaw = some "{}" ∨
        env.storedRaw = some "") →
      (main env).writes = [] ∧ (main env).done = true) := by
  constructor
  · rintro ⟨hs1, hs2, hs3⟩
    have hguard : ¬(truthyOpt env.appIdsRaw = false ∧
        (truthyOpt env.storedRaw = false ∨ env.storedRaw = some "{}" ∨
          env.storedRaw = some "")) := by
      rintro ⟨-, h | h | h⟩
      · rw [hs1] at h; cases h
      · exact hs2 h
      · exact hs3 h
    unfold main
    rw [if_neg hguard]
    dsimp only
    rw [if_pos hempty, if_pos ⟨hs1, hs2, hs3⟩]
    exact ⟨rfl, rfl, rfl⟩
  · intro hs
    by_cases hg : truthyOpt env.appIdsRaw = false ∧
        (truthyOpt env.storedRaw = false ∨ env.storedRaw = some "{}" ∨
          env.storedRaw = some "")
    · unfold main
      rw [if_pos hg]
      exact ⟨rfl, rfl⟩
    · have hcond : ¬(truthyOpt env.storedRaw = true ∧ env.storedRaw ≠ some "{}" ∧
          env.storedRaw ≠ some "") := by
        rcases hs with h | h | h
        · rintro ⟨h1, -, -⟩; rw [h] at h1; cases h1
        · rintro ⟨-, h2, -⟩; exact h2 h
        · rintro ⟨-, -, h3⟩; exact h3 h
      unfold main
      rw [if_neg hg]
      dsimp only
      rw [if_pos hempty, if_neg hcond]
      exact ⟨rfl, rfl⟩

/-- C8 witness: the non-empty state is erased with zero
notifications. -/
theorem C8_empty_tracked_set_witness :
    (main wEnvC8).writes = [StateWrite.erase] ∧ (main wEnvC8).notifs = [] ∧
    (main wEnvC8).done = true :=
  (C8_empty_tracked_set wEnvC8 (by decide)).1 (by decide)

/-- C9: when the stored blob is truthy but fails to parse, the
in-memory state is reset to empty, and every tracked id whose region
resolution succeeds is classified FirstSeen in this run. -/
theorem C9_malformed_state (env : Env)
    (hst : truthyOpt env.storedRaw = true)
    (hparse : env.parsedStored = none) :
    loadState env = [] ∧
    (∀ id, id ∈ parseIds env.appIdsRaw →
      (resolveRegions (fun r => lookupApp (env.responses r id))
        (effectiveRegions env.regionsRaw)).1 ≠ none →
      (id, Classification.FirstSeen) ∈ (main env).classes) := by
  have hload : loadState env = [] := by
    unfold loadState
    rw [hst, hparse]
    rfl
  refine ⟨hload, ?_⟩
  intro id hmem hres
  unfold main
  by_cases hg : truthyOpt env.appIdsRaw = false ∧
      (truthyOpt env.storedRaw = false ∨ env.storedRaw = some "{}" ∨
        env.storedRaw = some "")
  · exfalso
    rw [parseIds_eq_nil_of_falsy env.appIdsRaw hg.1] at hmem
    exact absurd hmem (List.not_mem_nil id)
  · rw [if_neg hg]
    dsimp only
    by_cases hnil : parseIds env.appIdsRaw = []
    · exfalso
      rw [hnil] at hmem
      exact absurd hmem (List.not_mem_nil id)
    · rw [if_neg hnil]
      dsimp only
      rw [hload]
      have hdel : handleDeletions (parseIds env.appIdsRaw) ([] : StateTable) = [] := rfl
      rw [hdel]
      exact runTasks_firstSeen (effectiveRegions env.regionsRaw) env.responses
        (parseIds env.appIdsRaw) [] id hmem rfl hres

/-- C9 witness: the lone tracked id is classified FirstSeen. -/
theorem C9_malformed_state_witness :
    ("1", Classification.FirstSeen) ∈ (main wEnvC9).classes :=
  (C9_malformed_state wEnvC9 (by decide) rfl).2 "1" (by decide) (by decide)

/-- C10: the parsed tracked-id list is not deduplicated — the run's
probe trace is one full per-id probe sequence per occurrence in the
parsed list, and a duplicated id yields two occurrences. -/
theorem C10_no_dedup :
    (∀ env : Env, (main env).probes =
      (parseIds env.appIdsRaw).flatMap (fun id =>
        ((resolveRegions (fun r => lookupApp (env.responses r id))
          (effectiveRegions env.regionsRaw)).2).map (fun rg => (id, rg)))) ∧
    parseIds (some "444934666,444934666") = ["444934666", "444934666"] := by
  constructor
  · intro env
    unfold main
    by_cases hg : truthyOpt env.appIdsRaw = false ∧
        (truthyOpt env.storedRaw = false ∨ env.storedRaw = some "{}" ∨
          env.storedRaw = some "")
    · rw [if_pos hg, parseIds_eq_nil_of_falsy env.appIdsRaw hg.1]
      rfl
    · rw [if_neg hg]
      dsimp only
      by_cases hnil : parseIds env.appIdsRaw = []
      · rw [if_pos hnil, hnil]
        split <;> rfl
      · rw [if_neg hnil]
        dsimp only
        exact runTasks_probes (effectiveRegions env.regionsRaw) env.responses
          (parseIds env.appIdsRaw) _
  · decide

end AppStoreMonitor
